import Mathlib

/-!
Verification of the sorted-set secondary index layered on an append-only
verifiable key/value store (pkg/database/sorted_set.go): the ZAdd write
path, the ZScan range-scan read path, the composite-key and reference
codecs, and the two-mode reference resolution.

The functions of the database layer (ZAdd, ZScan, getSortedSetKeyVal) are
embedded directly from the source.  The collaborators that the source file
imports but whose code is not part of the analysed sources - the common
byte codecs (WrapSeparatorToSet, AppendScoreToSet, BuildSetKey,
SetKeyScore, WrapIndexReference, UnwrapIndexReference, the separator) and
the store primitives (Snapshot/Reader, ReadValueAt, ReadTx, ReadValue,
Get, Commit) - are modelled from the specification, as their doc comments
state.
-/

/-- Byte strings are lists of naturals (each conceptually a byte). -/
abbrev Bytes := List Nat

/-- Big-endian encoding of a natural into 8 bytes, as binary.BigEndian
writes a uint64 (values are reduced modulo 2^64 by the byte extraction). -/
def be64 (n : Nat) : Bytes :=
  [n / 2 ^ 56 % 256, n / 2 ^ 48 % 256, n / 2 ^ 40 % 256, n / 2 ^ 32 % 256,
   n / 2 ^ 24 % 256, n / 2 ^ 16 % 256, n / 2 ^ 8 % 256, n % 256]

/-- Big-endian decoding of the first 8 bytes, as binary.BigEndian reads a
uint64; shorter inputs decode to 0 (out-of-range access is not modelled
further since all embedded call sites supply at least 8 bytes). -/
def decode64 (bs : Bytes) : Nat :=
  match bs with
  | b7 :: b6 :: b5 :: b4 :: b3 :: b2 :: b1 :: b0 :: _ =>
    ((((((b7 * 256 + b6) * 256 + b5) * 256 + b4) * 256 + b3) * 256 + b2) * 256 + b1) * 256 + b0
  | _ => 0

/-- Modelled from the spec: scores are 64-bit signed floating point
numbers; here modelled as rationals, which carry the total order the spec
requires of scores. -/
abbrev Score := Rat

/-- Modelled from the spec: the order-preserving monotonic unsigned mapping
of a score (spec 4.1).  The model maps score s to floor(s * 2^20) + 2^43,
a fixed-precision monotone mapping standing in for the IEEE-754 bit
reinterpretation (the floor is computed on the numerator and denominator
directly). -/
def scoreToU64 (s : Score) : Nat := (Int.ediv (s.num * 2 ^ 20) (s.den : Int) + 2 ^ 43).toNat

/-- Modelled from the spec: encode(score), the fixed-width order-preserving
byte encoding of a score (spec 4.1): the monotone unsigned image written
big-endian. -/
def encodeScore (s : Score) : Bytes := be64 (scoreToU64 s)

/-- Modelled from the spec: decode(bytes), the exact inverse of the score
encoding (spec 4.1). -/
def decodeScore (bs : Bytes) : Score := mkRat ((decode64 bs : Int) - 2 ^ 43) (2 ^ 20)

/-- Modelled from the spec: the sorted-set separator
(common.SortedSetSeparator), the byte tag distinguishing sorted-set
composite keys from plain keys in the shared keyspace (spec 3). -/
def sortedSetSep : Bytes := [255]

/-- Modelled from the spec: common.WrapSeparatorToSet, the bare set scan
start position - separator plus set name (spec 4.2 prefixForSet). -/
def wrapSepToSet (set : Bytes) : Bytes := sortedSetSep ++ set

/-- Modelled from the spec: common.AppendScoreToSet, the set-plus-score
scan start position - separator, set name, encoded score (spec 4.2
prefixForSetAndScore). -/
def appendScoreToSet (set : Bytes) (score : Score) : Bytes :=
  sortedSetSep ++ set ++ encodeScore score

/-- Modelled from the spec: common.BuildSetKey, the composite sorted-set
key - separator, set, encoded score, member key, and the 8-byte big-endian
pinned transaction id when a pin is present (spec 3, 4.2). -/
def buildSetKey (key set : Bytes) (score : Score) (index : Option Nat) : Bytes :=
  sortedSetSep ++ set ++ encodeScore score ++ key ++
    (match index with
     | some i => be64 i
     | none => [])

/-- Modelled from the spec: common.SetKeyScore (spec 4.2 scoreOf): strip
the separator-plus-set front of the composite key and decode the
fixed-width score field. -/
def setKeyScore (key set : Bytes) : Score :=
  decodeScore ((key.drop (sortedSetSep.length + set.length)).take 8)

/-- Modelled from the spec: common.WrapIndexReference (spec 4.3
wrapReference): member key length and bytes, a one-byte flag (0 unpinned,
1 pinned), and the 8-byte transaction id when pinned. -/
def wrapIndexReference (key : Bytes) (index : Option Nat) : Bytes :=
  be64 key.length ++ key ++
    (match index with
     | some i => 1 :: be64 i
     | none => [0])

/-- Modelled from the spec: common.UnwrapIndexReference (spec 4.3
unwrapReference): parse back the member key, the flag byte and the pinned
transaction id (0 when unpinned). -/
def unwrapIndexReference (v : Bytes) : Bytes × Nat × Nat :=
  let n := decode64 (v.take 8)
  let rest := v.drop 8
  let key := rest.take n
  let rest2 := rest.drop n
  let flag := rest2.headD 0
  let idx := if flag == 1 then decode64 ((rest2.drop 1).take 8) else 0
  (key, flag, idx)

/-- Byte-lexicographic order on byte strings, true when x is at most y; a
strict byte-wise prefix sorts first, as raw keys compare in the ordered
store. -/
def leb : Bytes → Bytes → Bool
  | [], _ => true
  | _ :: _, [] => false
  | a :: as, b :: bs => Nat.blt a b || (a == b && leb as bs)

/-- Byte-string has the given front, as bytes.HasPrefix(s, front) tests. -/
def bytesHasPre : Bytes → Bytes → Bool
  | _, [] => true
  | [], _ :: _ => false
  | a :: as, b :: bs => a == b && bytesHasPre as bs

/-- Errors surfaced by the sorted-set layer and its collaborators.
indexKeyMismatch embeds ErrIndexKeyMismatch; keyNotFound is the store's
absent-key failure; integrity is the content-hash mismatch of a
random-access read; nilPanic models the Go nil-pointer dereference the
scan performs on a nil ZItem; store covers other store faults; wrapped e s
embeds the error built by fmt.Errorf with format string
"unexpected error %v during %s". -/
inductive Err : Type where
  | indexKeyMismatch : Err
  | keyNotFound : Err
  | integrity : Err
  | nilPanic : Err
  | store : Nat → Err
  | wrapped : Err → String → Err
deriving DecidableEq

/-- A resolved item, as schema.Item: key, value and transaction index. -/
structure Item : Type where
  key : Bytes
  value : Bytes
  index : Nat
deriving DecidableEq

/-- A scan result entry, as schema.ZItem: resolved item, score, the raw
composite key (CurrentOffset, the continuation cursor) and the entry
index reported by the reader. -/
structure ZItem : Type where
  item : Item
  score : Score
  currentOffset : Bytes
  index : Nat
deriving DecidableEq

/-- A snapshot entry as served by the ordered reader: raw key, the encoded
value pointer (opaque to this layer) and the entry index. -/
structure DbEntry : Type where
  key : Bytes
  ptr : Bytes
  index : Nat
deriving DecidableEq

/-- Modelled from the spec: the external store (spec 6), reduced to the
primitives the sorted-set layer consumes.  entries is the snapshot's
key-ordered (ascending) sequence; readValueAt returns the buffer contents
of the content-hash-verified random read together with its error result,
mirroring the two return values of store.ReadValueAt; readTxRes loads a
historical transaction's write-set (ReadTx); getRes is the
current-value lookup (d.Get / readCurrentValue); commitRes is the atomic
commit. -/
structure Store : Type where
  entries : List DbEntry
  readValueAt : Bytes → Bytes × Option Err
  readTxRes : Nat → Except Err (List (Bytes × Bytes))
  getRes : Bytes → Except Err Item
  commitRes : List (Bytes × Bytes) → Except Err (Nat × Bytes)

/-- Modelled from the spec: store.ReadValue on a loaded transaction -
look the key up in that transaction's written set, failing if absent
(spec 6 readValue). -/
def readValueInTx (tx : List (Bytes × Bytes)) (k : Bytes) : Except Err Bytes :=
  match tx.find? (fun p => p.1 == k) with
  | some p => .ok p.2
  | none => .error .keyNotFound

/-- Modelled from the spec: the snapshot's ordered reader (spec 6,
snapshot.Reader with a ReaderSpec of prefix mode, initial key and an
ascending flag): it serves the snapshot entries from the start position
onward in ascending key order when the flag is true, and from the start
position downward in descending key order when it is false. -/
def readerEntries (st : Store) (startKey : Bytes) (asc : Bool) : List DbEntry :=
  if asc then st.entries.filter (fun e => leb startKey e.key)
  else (st.entries.filter (fun e => leb e.key startKey)).reverse

/-- ZScan request options, as schema.ZScanOptions: set name, optional
min and max score bounds, offset cursor bytes, limit (0 = unbounded) and
the reverse flag. -/
structure ZScanOptions : Type where
  set : Bytes
  min : Option Score
  max : Option Score
  offset : Bytes
  limit : Nat
  reverse : Bool

/-- ZAdd request options, as schema.ZAddOptions: member key, set name,
score, and the optional pinned transaction index. -/
structure ZAddOptions : Type where
  key : Bytes
  set : Bytes
  score : Score
  index : Option Nat

/-- The scan start position, embedded from ZScan lines 49-64: start from
the wrapped set; overwrite with set-plus-min when Min is given and the
order is not reversed; overwrite with set-plus-max when Max is given and
the order is reversed; a non-empty client offset overwrites everything. -/
def zscanOffsetKey (o : ZScanOptions) : Bytes :=
  let k0 := wrapSepToSet o.set
  let k1 :=
    match o.min with
    | some m => if !o.reverse then appendScoreToSet o.set m else k0
    | none => k0
  let k2 :=
    match o.max with
    | some m => if o.reverse then appendScoreToSet o.set m else k1
    | none => k1
  if o.offset.length > 0 then o.offset else k2

/-- Per-entry reference resolution, embedded from ZScan lines 99-133: read
the reference bytes through the content-hash-verified random read - whose
error result the source assigns but never checks, so only the buffer
contents flow on - then, only for keys carrying the sorted-set separator,
unwrap the reference and resolve it: pinned (flag 1) through the
historical transaction read, unpinned through the current-value lookup.
Keys without the separator resolve to no item. -/
def resolveEntry (st : Store) (e : DbEntry) : Except Err (Option Item) :=
  let refVal := (st.readValueAt e.ptr).1
  if bytesHasPre e.key sortedSetSep then
    let u := unwrapIndexReference refVal
    let refKey := u.1
    let flag := u.2.1
    let refIndex := u.2.2
    if flag == 1 then
      match st.readTxRes refIndex with
      | .error err => .error err
      | .ok tx =>
        match readValueInTx tx refKey with
        | .error err => .error err
        | .ok val => .ok (some { key := refKey, value := val, index := refIndex })
    else
      match st.getRes refKey with
      | .error err => .error err
      | .ok item => .ok (some item)
  else
    .ok none

/-- The score range guard, embedded from ZScan lines 144-150: when Min is
present the entry is skipped if its score is below Min, and when Max is
present if its score is above Max.  The source dereferences zitem.Score
without a nil check, so a nil zitem under either filter is the Go
nil-pointer dereference, modelled as the nilPanic outcome.  Returns ok
true to skip the entry and ok false to keep it. -/
def rangeGuardMax (mx : Option Score) (zitem : Option ZItem) : Except Err Bool :=
  match mx with
  | some m =>
    match zitem with
    | none => .error .nilPanic
    | some z => if m < z.score then .ok true else .ok false
  | none => .ok false

/-- First half of the range guard (the Min comparison); see rangeGuardMax. -/
def rangeGuard (mn mx : Option Score) (zitem : Option ZItem) : Except Err Bool :=
  match mn with
  | some m =>
    match zitem with
    | none => .error .nilPanic
    | some z => if z.score < m then .ok true else rangeGuardMax mx zitem
  | none => rangeGuardMax mx zitem

/-- The scan loop, embedded from ZScan lines 90-156: read entries until
the reader is exhausted (normal termination returning the collected
items); resolve each entry (resolution errors abort the scan); build the
ZItem for resolved entries, nil otherwise; apply the range guard; append
the (possibly nil) zitem and stop once the incremented counter reaches
the limit.  The option fields the loop body reads each iteration -
options.Min, options.Max and options.Set - are passed as the mn, mx and
oset parameters. -/
def zscanLoop (st : Store) (mn mx : Option Score) (oset : Bytes) (limit : Nat) :
    List DbEntry → List (Option ZItem) → Nat → Except Err (List (Option ZItem))
  | [], items, _ => .ok items
  | e :: rest, items, i =>
    match resolveEntry st e with
    | .error err => .error err
    | .ok itemOpt =>
      let zitem : Option ZItem := itemOpt.map (fun it =>
        { item := it, score := setKeyScore e.key oset,
          currentOffset := e.key, index := e.index })
      match rangeGuard mn mx zitem with
      | .error err => .error err
      | .ok true => zscanLoop st mn mx oset limit rest items i
      | .ok false =>
        if i + 1 == limit then .ok (items ++ [zitem])
        else zscanLoop st mn mx oset limit rest (items ++ [zitem]) (i + 1)

/-- ZScan, embedded from lines 40-163: compute the start position, replace
a zero limit by the maximal uint64, open the reader - the source passes
options.Reverse as the ReaderSpec ascending flag (line 75) - and run the
scan loop with an empty accumulator. -/
def zscan (st : Store) (o : ZScanOptions) : Except Err (List (Option ZItem)) :=
  let limit := if o.limit == 0 then 2 ^ 64 - 1 else o.limit
  zscanLoop st o.min o.max o.set limit (readerEntries st (zscanOffsetKey o) o.reverse) [] 0

/-- getSortedSetKeyVal, embedded from lines 174-213: with a pin and the
persistence check enabled, load the pinned transaction (its own error
propagates) and require the member key to have a value there, failing
with ErrIndexKeyMismatch otherwise; without a pin, look the member key up
(the lookup's own error propagates) and fail with ErrIndexKeyMismatch
when the returned key differs; on success return the composite key and
the wrapped reference, the pin retained exactly when supplied. -/
def getSortedSetKeyVal (st : Store) (o : ZAddOptions) (skipPersistenceCheck : Bool) :
    Except Err (Bytes × Bytes) :=
  match o.index with
  | some idx =>
    if skipPersistenceCheck then
      .ok (buildSetKey o.key o.set o.score (some idx), wrapIndexReference o.key (some idx))
    else
      match st.readTxRes idx with
      | .error err => .error err
      | .ok tx =>
        match readValueInTx tx o.key with
        | .error _ => .error .indexKeyMismatch
        | .ok _ =>
          .ok (buildSetKey o.key o.set o.score (some idx), wrapIndexReference o.key (some idx))
  | none =>
    match st.getRes o.key with
    | .error err => .error err
    | .ok i =>
      if i.key == o.key then
        .ok (buildSetKey o.key o.set o.score none, wrapIndexReference o.key none)
      else .error .indexKeyMismatch

/-- The ZAdd result, as schema.Root: the new transaction index and the
post-commit accumulator hash. -/
structure Root : Type where
  index : Nat
  root : Bytes
deriving DecidableEq

/-- ZAdd, embedded from lines 19-37: validate and build the entry through
getSortedSetKeyVal (with the persistence check enabled), commit the single
key/value pair, and wrap any commit error with fmt.Errorf("unexpected
error %v during %s", err, "Reference"). -/
def zadd (st : Store) (o : ZAddOptions) : Except Err Root :=
  match getSortedSetKeyVal st o false with
  | .error err => .error err
  | .ok kv =>
    match st.commitRes [kv] with
    | .error err => .error (.wrapped err "Reference")
    | .ok r => .ok { index := r.1, root := r.2 }

/-- Modelled from the spec: the start-position precedence of spec 4.5 read
first-match-wins - rule 1 a supplied (non-empty) offset cursor, rule 2
ascending with Min, rule 3 descending with Max, rule 4 the bare set
position. -/
def zscanStartKeySpecNoCursor (o : ZScanOptions) : Bytes :=
  match o.reverse, o.min, o.max with
  | false, some m, _ => appendScoreToSet o.set m
  | true, _, some m => appendScoreToSet o.set m
  | _, _, _ => wrapSepToSet o.set

/-- Modelled from the spec: all four start-position rules of spec 4.5,
rule 1 (the cursor) first. -/
def zscanStartKeySpec (o : ZScanOptions) : Bytes :=
  if o.offset.length > 0 then o.offset else zscanStartKeySpecNoCursor o

/-- The example set name used by the concrete scan stores. -/
def exSet : Bytes := [115]

/-- Composite key of the score-1 entry for member 98. -/
def exK1 : Bytes := buildSetKey [98] exSet 1 none

/-- Composite key of the score-2 entry for member 99. -/
def exK2 : Bytes := buildSetKey [99] exSet 2 none

/-- Composite key of the score-3 entry for member 97. -/
def exK3 : Bytes := buildSetKey [97] exSet 3 none

/-- The current-value lookup table shared by the example stores: members
97, 98, 99 exist with values 10, 11, 12 at transaction indexes 1, 2, 3. -/
def exGetRes : Bytes → Except Err Item := fun k =>
  if k == [97] then .ok { key := [97], value := [10], index := 1 }
  else if k == [98] then .ok { key := [98], value := [11], index := 2 }
  else if k == [99] then .ok { key := [99], value := [12], index := 3 }
  else .error .keyNotFound

/-- Example store for the scan-order and range-filter claims: the snapshot
holds exactly the three sorted-set entries written for members 98, 99, 97
with scores 1, 2, 3 (in ascending key order), whose value pointers [1],
[2], [3] read back the unpinned references to those members. -/
def exStore : Store where
  entries :=
    [ { key := exK1, ptr := [1], index := 11 },
      { key := exK2, ptr := [2], index := 12 },
      { key := exK3, ptr := [3], index := 13 } ]
  readValueAt := fun p =>
    if p == [1] then (wrapIndexReference [98] none, none)
    else if p == [2] then (wrapIndexReference [99] none, none)
    else if p == [3] then (wrapIndexReference [97] none, none)
    else ([], none)
  readTxRes := fun _ => .error .keyNotFound
  getRes := exGetRes
  commitRes := fun _ => .ok (99, [0])

/-- Unbounded ascending scan request (reverse false) over the example set. -/
def c1AscOpts : ZScanOptions :=
  { set := exSet, min := none, max := none, offset := [], limit := 0, reverse := false }

/-- Unbounded descending scan request (reverse true) over the example set. -/
def c1DescOpts : ZScanOptions :=
  { set := exSet, min := none, max := none, offset := [], limit := 0, reverse := true }

instance {ε α : Type} [DecidableEq ε] [DecidableEq α] : DecidableEq (Except ε α) := fun a b =>
  match a, b with
  | .ok x, .ok y =>
    if h : x = y then .isTrue (by rw [h]) else .isFalse (fun hc => h (by cases hc; rfl))
  | .ok _, .error _ => .isFalse (fun hc => Except.noConfusion hc)
  | .error _, .ok _ => .isFalse (fun hc => Except.noConfusion hc)
  | .error x, .error y =>
    if h : x = y then .isTrue (by rw [h]) else .isFalse (fun hc => h (by cases hc; rfl))

/-- Store whose snapshot serves a single plain entry (key 97, no sorted-set
separator) alongside the sorted-set keyspace. -/
def c2Store : Store where
  entries := [ { key := [97], ptr := [7], index := 21 } ]
  readValueAt := fun _ => ([], none)
  readTxRes := fun _ => .error .keyNotFound
  getRes := exGetRes
  commitRes := fun _ => .ok (99, [0])

/-- Scan request with a Min filter over the example set. -/
def c2MinOpts : ZScanOptions :=
  { set := exSet, min := some 0, max := none, offset := [], limit := 0, reverse := false }

/-- Scan request with no score filter over the example set. -/
def c2PlainOpts : ZScanOptions :=
  { set := exSet, min := none, max := none, offset := [], limit := 0, reverse := false }

/-- Store with one sorted-set entry whose content-hash-verified read
reports an integrity error while its buffer still holds bytes that decode
to a valid unpinned reference to member 98 (a corrupt read whose contents
happen to parse). -/
def c3Store : Store where
  entries := [ { key := exK1, ptr := [1], index := 11 } ]
  readValueAt := fun p =>
    if p == [1] then (wrapIndexReference [98] none, some .integrity) else ([], none)
  readTxRes := fun _ => .error .keyNotFound
  getRes := exGetRes
  commitRes := fun _ => .ok (99, [0])

/-- Unbounded scan request reaching the single entry of c3Store (reverse
true, which the source wires to ascending iteration). -/
def c3Opts : ZScanOptions :=
  { set := exSet, min := none, max := none, offset := [], limit := 0, reverse := true }

/-- Scan request with Min 3/2 and Max 5/2 over the example set (the range
that should select exactly the score-2 entry). -/
def c7Opts : ZScanOptions :=
  { set := exSet, min := some (mkRat 3 2), max := some (mkRat 5 2),
    offset := [], limit := 0, reverse := false }

/-- Store with no member keys: every current-value lookup fails. -/
def c4NoKeyStore : Store where
  entries := []
  readValueAt := fun _ => ([], none)
  readTxRes := fun _ => .error .keyNotFound
  getRes := fun _ => .error .keyNotFound
  commitRes := fun _ => .ok (99, [0])

/-- Store whose current-value lookup answers every query with an item
carrying key 96 (an ambiguous lookup returning a different key). -/
def c4WrongKeyStore : Store where
  entries := []
  readValueAt := fun _ => ([], none)
  readTxRes := fun _ => .error .keyNotFound
  getRes := fun _ => .ok { key := [96], value := [9], index := 4 }
  commitRes := fun _ => .ok (99, [0])

/-- Unpinned ZAdd request for member 97. -/
def c4UnpinnedOpts : ZAddOptions := { key := [97], set := exSet, score := 1, index := none }

/-- Store for the pinned write path: transaction 9 contains member 97. -/
def c6PinStore : Store where
  entries := []
  readValueAt := fun _ => ([], none)
  readTxRes := fun i => if i == 9 then .ok [([97], [10])] else .error .keyNotFound
  getRes := exGetRes
  commitRes := fun _ => .ok (99, [0])

/-- Pinned ZAdd request for member 97 at transaction 9. -/
def c6PinOpts : ZAddOptions := { key := [97], set := exSet, score := 2, index := some 9 }

/-- Unpinned ZAdd request for member 97 with score 2. -/
def c6UnpOpts : ZAddOptions := { key := [97], set := exSet, score := 2, index := none }

/-- Store whose commit fails with a distinguishable store fault while the
validation lookup of member 97 succeeds. -/
def c9Store : Store where
  entries := []
  readValueAt := fun _ => ([], none)
  readTxRes := fun _ => .error .keyNotFound
  getRes := exGetRes
  commitRes := fun _ => .error (.store 7)

/-- Unpinned ZAdd request for member 97 used against c9Store. -/
def c9Opts : ZAddOptions := { key := [97], set := exSet, score := 1, index := none }

/-- The full result of the successful unbounded descending-flag scan over
the example store: the three entries in the order the reader serves them. -/
def c8AllItems : List (Option ZItem) :=
  [ some { item := { key := [98], value := [11], index := 2 },
           score := 1, currentOffset := exK1, index := 11 },
    some { item := { key := [99], value := [12], index := 3 },
           score := 2, currentOffset := exK2, index := 12 },
    some { item := { key := [97], value := [10], index := 1 },
           score := 3, currentOffset := exK3, index := 13 } ]

theorem be64_length (n : Nat) : (be64 n).length = 8 := by
  simp [be64]

theorem decode64_be64 (n : Nat) (h : n < 2 ^ 64) : decode64 (be64 n) = n := by
  simp only [be64, decode64]
  omega

theorem unwrap_wrap_pinned (k : Bytes) (i : Nat) (hk : k.length < 2 ^ 64)
    (hi : i < 2 ^ 64) :
    unwrapIndexReference (wrapIndexReference k (some i)) = (k, 1, i) := by
  simp only [unwrapIndexReference, wrapIndexReference, List.append_assoc]
  rw [List.take_left' (be64_length k.length), List.drop_left' (be64_length k.length),
    decode64_be64 k.length hk, List.take_left, List.drop_left]
  simp only [List.headD, List.drop_succ_cons, List.drop_zero]
  rw [List.take_of_length_le (by rw [be64_length]), decode64_be64 i hi]
  simp

theorem unwrap_wrap_unpinned (k : Bytes) (hk : k.length < 2 ^ 64) :
    unwrapIndexReference (wrapIndexReference k none) = (k, 0, 0) := by
  simp only [unwrapIndexReference, wrapIndexReference, List.append_assoc]
  rw [List.take_left' (be64_length k.length), List.drop_left' (be64_length k.length),
    decode64_be64 k.length hk, List.take_left, List.drop_left]
  simp

theorem zscanOffsetKey_eq_spec (o : ZScanOptions) : zscanOffsetKey o = zscanStartKeySpec o := by
  rcases o with ⟨set, mn, mx, off, lim, rev⟩
  unfold zscanOffsetKey zscanStartKeySpec zscanStartKeySpecNoCursor
  cases rev <;> cases mn <;> cases mx <;> simp

/-- C1: refuted on the embedded code.  Over a snapshot holding exactly the
three sorted-set entries with scores 1, 2, 3, the unbounded ZScan with
reverse = false returns no items at all (the source passes options.Reverse
as the reader's ascending flag, so the reader runs descending from the
bare set position and never reaches the set's entries), and the scan with
reverse = true returns the items in ascending score order 1, 2, 3 where
the claim requires descending 3, 2, 1. -/
theorem zscan_order_claim_fails_eval :
    zscan exStore c1AscOpts = .ok [] ∧
    Except.map (List.map (Option.map ZItem.score)) (zscan exStore c1DescOpts) =
      .ok [some 1, some 2, some 3] := by
  constructor
  · rfl
  · decide

/-- C2: refuted on the embedded code.  When the scan iterates an entry
whose key does not carry the sorted-set separator, the entry is not
skipped: with a Min filter the source evaluates zitem.Score on the nil
zitem - the Go nil-pointer dereference, the nilPanic outcome - and with
no filter it appends the nil zitem to the results, so a result is emitted
for the unresolvable entry. -/
theorem zscan_skips_foreign_keys_claim_fails_eval :
    zscan c2Store c2MinOpts = .error .nilPanic ∧
    zscan c2Store c2PlainOpts = .ok [none] := by
  constructor
  · decide
  · decide

/-- C3: refuted on the embedded code.  The source assigns the error of the
content-hash-verified random read (line 106) but never checks it: on a
read that reports an integrity failure the scan still returns ok with the
item resolved from the corrupt buffer - the integrity error is silently
swallowed and data is returned in its place. -/
theorem zscan_integrity_error_claim_fails_eval :
    zscan c3Store c3Opts =
      .ok [some { item := { key := [98], value := [11], index := 2 },
                  score := 1, currentOffset := exK1, index := 11 }] := by
  decide

/-- C7: refuted on the embedded code.  With the three entries of scores
1, 2, 3 in the set, the scan with Min 1.5 and Max 2.5 returns no items at
all instead of exactly the score-2 entry: the start position is the
set-plus-Min key, but the source passes options.Reverse (false) as the
reader's ascending flag, so iteration runs descending from that position,
reaches only the score-1 entry, and the per-entry guard then filters it
out. -/
theorem zscan_range_filter_claim_fails_eval :
    zscan exStore c7Opts = .ok [] := by
  decide

/-- C5: confirmed.  The scan start position computed by the embedded
ZScan equals the first-match-wins precedence of the spec: a non-empty
offset cursor verbatim; else the set-plus-Min position when ascending
with Min; else the set-plus-Max position when descending with Max; else
the bare set position. -/
theorem zscan_start_position_precedence (o : ZScanOptions) :
    zscanOffsetKey o = zscanStartKeySpec o :=
  zscanOffsetKey_eq_spec o

/-- C10: confirmed.  A present but zero-length offset cursor is treated as
absent: the start position falls through to the Min/Max/set rules exactly
as when no cursor is supplied. -/
theorem zscan_empty_cursor_ignored (o : ZScanOptions) (h : o.offset.length = 0) :
    zscanOffsetKey o = zscanStartKeySpecNoCursor o := by
  rcases o with ⟨set, mn, mx, off, lim, rev⟩
  simp only at h
  unfold zscanOffsetKey zscanStartKeySpecNoCursor
  simp only [h]
  cases rev <;> cases mn <;> cases mx <;> simp

/-- Witness for C10: with an empty cursor, Min 1 supplied and reverse
false, the start position is the set-plus-Min key of start rule 2. -/
theorem zscan_empty_cursor_ignored_witness :
    zscanOffsetKey
        { set := exSet, min := some 1, max := none, offset := [], limit := 0, reverse := false } =
      zscanStartKeySpecNoCursor
        { set := exSet, min := some 1, max := none, offset := [], limit := 0, reverse := false } :=
  zscan_empty_cursor_ignored
    { set := exSet, min := some 1, max := none, offset := [], limit := 0, reverse := false } rfl

/-- Counterexample for C4 as stated: when no pin is supplied and the
current-value lookup of the member key fails, ZAdd fails with the
lookup's own not-found error, which is not the reference-mismatch error
the claim requires. -/
theorem zadd_lookup_error_not_mismatch :
    zadd c4NoKeyStore c4UnpinnedOpts = .error .keyNotFound ∧
    Err.keyNotFound ≠ Err.indexKeyMismatch := by
  constructor
  · decide
  · decide

/-- C4 as amended: with a pin, the pinned-transaction read's own error
propagates and a member key absent from that transaction's written set
fails with the reference-mismatch error; without a pin, a failing lookup
propagates its own error (not reference-mismatch) and a returned key
different from the member key fails with reference-mismatch; otherwise
validation passes, producing the composite key and reference payload,
and the pair is committed. -/
theorem zadd_validation_amended (st : Store) (o : ZAddOptions) :
    (∀ i e, o.index = some i → st.readTxRes i = .error e → zadd st o = .error e) ∧
    (∀ i tx e, o.index = some i → st.readTxRes i = .ok tx →
      readValueInTx tx o.key = .error e → zadd st o = .error .indexKeyMismatch) ∧
    (∀ e, o.index = none → st.getRes o.key = .error e → zadd st o = .error e) ∧
    (∀ it, o.index = none → st.getRes o.key = .ok it → it.key ≠ o.key →
      zadd st o = .error .indexKeyMismatch) ∧
    (∀ i tx v, o.index = some i → st.readTxRes i = .ok tx →
      readValueInTx tx o.key = .ok v →
      getSortedSetKeyVal st o false =
        .ok (buildSetKey o.key o.set o.score (some i), wrapIndexReference o.key (some i))) ∧
    (∀ it, o.index = none → st.getRes o.key = .ok it → it.key = o.key →
      getSortedSetKeyVal st o false =
        .ok (buildSetKey o.key o.set o.score none, wrapIndexReference o.key none)) ∧
    (∀ kv id alh, getSortedSetKeyVal st o false = .ok kv → st.commitRes [kv] = .ok (id, alh) →
      zadd st o = .ok { index := id, root := alh }) := by
  refine ⟨?_, ?_, ?_, ?_, ?_, ?_, ?_⟩
  · intro i e hi he
    simp [zadd, getSortedSetKeyVal, hi, he]
  · intro i tx e hi htx he
    simp [zadd, getSortedSetKeyVal, hi, htx, he]
  · intro e hi he
    simp [zadd, getSortedSetKeyVal, hi, he]
  · intro it hi hit hne
    simp [zadd, getSortedSetKeyVal, hi, hit, hne]
  · intro i tx v hi htx hv
    simp [getSortedSetKeyVal, hi, htx, hv]
  · intro it hi hit heq
    simp [getSortedSetKeyVal, hi, hit, heq]
  · intro kv id alh hkv hc
    simp [zadd, hkv, hc]

/-- Witness for the amended C4: on the store with no member keys the
unpinned ZAdd fails with the lookup's not-found error, and on the store
whose lookup answers with a different key it fails with the
reference-mismatch error. -/
theorem zadd_validation_amended_witness :
    zadd c4NoKeyStore c4UnpinnedOpts = .error Err.keyNotFound ∧
    zadd c4WrongKeyStore c4UnpinnedOpts = .error Err.indexKeyMismatch :=
  ⟨(zadd_validation_amended c4NoKeyStore c4UnpinnedOpts).2.2.1 Err.keyNotFound rfl rfl,
   (zadd_validation_amended c4WrongKeyStore c4UnpinnedOpts).2.2.2.1
     { key := [96], value := [9], index := 4 } rfl rfl (by decide)⟩

/-- C6: confirmed.  Whenever validation succeeds, the stored reference
payload unwraps to the member key with flag 1 and exactly the pinned
transaction id the caller supplied when a pin was given, and to the
member key with flag 0 and no transaction index (0) when no pin was
given - even though the unpinned validation lookup observed a concrete
transaction id. -/
theorem zadd_reference_payload_pin (st : Store) (o : ZAddOptions) (ik rv : Bytes)
    (hk : o.key.length < 2 ^ 64)
    (h : getSortedSetKeyVal st o false = .ok (ik, rv)) :
    (∀ i, o.index = some i → i < 2 ^ 64 → unwrapIndexReference rv = (o.key, 1, i)) ∧
    (o.index = none → unwrapIndexReference rv = (o.key, 0, 0)) := by
  rcases o with ⟨key, oset, score, index⟩
  constructor
  · intro i hi hilt
    subst hi
    simp only [getSortedSetKeyVal, Bool.false_eq_true, reduceIte] at h
    split at h
    · exact absurd h (by simp)
    · split at h
      · exact absurd h (by simp)
      · simp only [Except.ok.injEq, Prod.mk.injEq] at h
        rw [← h.2]
        exact unwrap_wrap_pinned key i hk hilt
  · intro hi
    subst hi
    simp only [getSortedSetKeyVal] at h
    split at h
    · exact absurd h (by simp)
    · split at h
      · simp only [Except.ok.injEq, Prod.mk.injEq] at h
        rw [← h.2]
        exact unwrap_wrap_unpinned key hk
      · exact absurd h (by simp)

/-- Witness for C6: the payload built by the pinned request at transaction
9 unwraps to member 97 with flag 1 and pin 9, and the payload built by the
unpinned request unwraps to member 97 with flag 0 and index 0. -/
theorem zadd_reference_payload_pin_witness :
    unwrapIndexReference (wrapIndexReference [97] (some 9)) = ([97], 1, 9) ∧
    unwrapIndexReference (wrapIndexReference [97] none) = ([97], 0, 0) :=
  ⟨(zadd_reference_payload_pin c6PinStore c6PinOpts
      (buildSetKey [97] exSet 2 (some 9)) (wrapIndexReference [97] (some 9))
      (by decide) (by decide)).1 9 rfl (by decide),
   (zadd_reference_payload_pin exStore c6UnpOpts
      (buildSetKey [97] exSet 2 none) (wrapIndexReference [97] none)
      (by decide) (by decide)).2 rfl⟩

/-- Counterexample for C9 as stated: when the commit fails with store
fault 7, ZAdd returns that error wrapped by fmt.Errorf("unexpected error
%v during %s", err, "Reference") - a different error value - so the store
error is not propagated verbatim. -/
theorem zadd_commit_error_not_verbatim :
    zadd c9Store c9Opts = .error (.wrapped (.store 7) "Reference") ∧
    Err.wrapped (.store 7) "Reference" ≠ Err.store 7 := by
  constructor
  · decide
  · decide

/-- C9 as amended: a commit failure makes ZAdd fail, returning the store's
error wrapped in the fixed "unexpected error during Reference" context
rather than unchanged. -/
theorem zadd_commit_error_wrapped (st : Store) (o : ZAddOptions) (kv : Bytes × Bytes) (e : Err)
    (h1 : getSortedSetKeyVal st o false = .ok kv) (h2 : st.commitRes [kv] = .error e) :
    zadd st o = .error (.wrapped e "Reference") := by
  simp [zadd, h1, h2]

/-- Witness for the amended C9: on c9Store the commit fault 7 comes back
wrapped in the Reference context. -/
theorem zadd_commit_error_wrapped_witness :
    zadd c9Store c9Opts = .error (.wrapped (.store 7) "Reference") :=
  zadd_commit_error_wrapped c9Store c9Opts
    (buildSetKey [97] exSet 1 none, wrapIndexReference [97] none) (.store 7) (by decide) rfl

/-- Every successful scan-loop result extends the accumulator it started
from. -/
theorem zscanLoop_extends (st : Store) (mn mx : Option Score) (oset : Bytes) (lim : Nat)
    (es : List DbEntry) :
    ∀ (acc : List (Option ZItem)) (i : Nat) (r : List (Option ZItem)),
      zscanLoop st mn mx oset lim es acc i = .ok r → ∃ t, r = acc ++ t := by
  induction es with
  | nil =>
    intro acc i r h
    simp only [zscanLoop, Except.ok.injEq] at h
    exact ⟨[], by simp [h]⟩
  | cons e rest ih =>
    intro acc i r h
    simp only [zscanLoop] at h
    cases hres : resolveEntry st e with
    | error err => rw [hres] at h; exact absurd h (by simp)
    | ok itemOpt =>
      rw [hres] at h
      simp only at h
      cases hrg : rangeGuard mn mx (itemOpt.map (fun it =>
          { item := it, score := setKeyScore e.key oset,
            currentOffset := e.key, index := e.index })) with
      | error err => rw [hrg] at h; exact absurd h (by simp)
      | ok b =>
        rw [hrg] at h
        cases b with
        | true => exact ih acc i r h
        | false =>
          simp only at h
          split at h
          · simp only [Except.ok.injEq] at h
            exact ⟨_, h.symm⟩
          · obtain ⟨t, ht⟩ := ih _ _ _ h
            exact ⟨_, by rw [ht, List.append_assoc]⟩

/-- A scan loop whose limit is never reached computes, for any smaller
limit L above the current count, exactly the first L entries of its own
unlimited result: the limited loop stops at the L-th appended item. -/
theorem zscanLoop_take (st : Store) (mn mx : Option Score) (oset : Bytes) (L M : Nat)
    (es : List DbEntry) :
    ∀ (acc all : List (Option ZItem)),
      acc.length + es.length < M → acc.length < L →
      zscanLoop st mn mx oset M es acc acc.length = .ok all →
      zscanLoop st mn mx oset L es acc acc.length = .ok (all.take L) := by
  induction es with
  | nil =>
    intro acc all hM hL h
    simp only [zscanLoop, Except.ok.injEq] at h ⊢
    rw [← h, List.take_of_length_le (Nat.le_of_lt hL)]
  | cons e rest ih =>
    intro acc all hM hL h
    simp only [zscanLoop] at h ⊢
    cases hres : resolveEntry st e with
    | error err => rw [hres] at h; exact absurd h (by simp)
    | ok itemOpt =>
      rw [hres] at h
      simp only at h ⊢
      cases hrg : rangeGuard mn mx (itemOpt.map (fun it =>
          { item := it, score := setKeyScore e.key oset,
            currentOffset := e.key, index := e.index })) with
      | error err => rw [hrg] at h; exact absurd h (by simp)
      | ok b =>
        rw [hrg] at h
        try simp only at h ⊢
        cases b with
        | true =>
          refine ih acc all ?_ hL h
          simp only [List.length_cons] at hM
          omega
        | false =>
          try simp only at h ⊢
          have hMne : (acc.length + 1 == M) = false := by
            simp only [List.length_cons] at hM
            simp only [beq_eq_false_iff_ne, ne_eq]
            omega
          simp only [hMne, Bool.false_eq_true, if_false] at h
          have hlen : (acc ++ [itemOpt.map (fun it =>
              ({ item := it, score := setKeyScore e.key oset,
                 currentOffset := e.key, index := e.index } : ZItem))]).length = acc.length + 1 := by
            simp
          rw [← hlen] at h ⊢
          split
          next hbeq =>
            have hLeq : ((acc ++ [itemOpt.map (fun it =>
                ({ item := it, score := setKeyScore e.key oset,
                   currentOffset := e.key, index := e.index } : ZItem))]).length) = L := by
              simpa using hbeq
            obtain ⟨t, ht⟩ := zscanLoop_extends st mn mx oset M rest _ _ _ h
            rw [ht, ← hLeq, List.take_left]
          next hbeq =>
            refine ih _ all ?_ ?_ h
            · rw [hlen]
              simp only [List.length_cons] at hM
              omega
            · rw [hlen]
              rw [hlen] at hbeq
              have hne : acc.length + 1 ≠ L := by
                intro hEq
                rw [hEq] at hbeq
                simp at hbeq
              omega

/-- The reader serves at most the snapshot's entries. -/
theorem readerEntries_length_le (st : Store) (k : Bytes) (b : Bool) :
    (readerEntries st k b).length ≤ st.entries.length := by
  unfold readerEntries
  split
  · exact st.entries.length_filter_le _
  · rw [List.length_reverse]
    exact st.entries.length_filter_le _

/-- C8: confirmed.  For a scan whose unbounded (limit 0) run succeeds with
result list all, the same scan with limit L > 0 succeeds with exactly the
first L collected items - so at most L items are collected and the scan
stops as soon as the L-th item has been appended - and the collected list
has length at most L; moreover the scan loop returns its accumulator as a
normal ok result the moment the reader reports end of sequence, for any
limit (the third conjunct), so exhaustion is normal termination rather
than an error.  The bound on the snapshot size reflects that the source
substitutes the maximal uint64 for a zero limit. -/
theorem zscan_limit_behavior (st : Store) (o : ZScanOptions) (all : List (Option ZItem)) (L : Nat)
    (h0 : o.limit = 0) (hlen : st.entries.length < 2 ^ 64 - 1)
    (hall : zscan st o = .ok all) (hL : 0 < L) :
    zscan st { o with limit := L } = .ok (all.take L) ∧
    (all.take L).length ≤ L ∧
    (∀ mn mx oset lim acc i, zscanLoop st mn mx oset lim [] acc i = .ok acc) := by
  refine ⟨?_, all.length_take_le L, fun _ _ _ _ _ _ => rfl⟩
  simp only [zscan] at hall ⊢
  rw [h0] at hall
  simp only [beq_self_eq_true, if_true] at hall
  have hok : zscanOffsetKey { o with limit := L } = zscanOffsetKey o := rfl
  have hLne : (L == 0) = false := by
    simp only [beq_eq_false_iff_ne, ne_eq]
    omega
  simp only [hok, hLne, Bool.false_eq_true, if_false]
  refine zscanLoop_take st o.min o.max o.set L (2 ^ 64 - 1)
    (readerEntries st (zscanOffsetKey o) o.reverse) [] all ?_ hL hall
  have := readerEntries_length_le st (zscanOffsetKey o) o.reverse
  simp only [List.length_nil]
  omega

/-- Witness for C8: on the example store, the scan with limit 2 returns
exactly the first two of the three items its unbounded run collects. -/
theorem zscan_limit_behavior_witness :
    zscan exStore { c1DescOpts with limit := 2 } = .ok (c8AllItems.take 2) :=
  (zscan_limit_behavior exStore c1DescOpts c8AllItems 2 rfl (by decide) (by decide)
    (by decide)).1

